import Mathlib

/-!
Shallow embedding of `src/include/struct.h` — the node-variant family of the
sparse hierarchical addressing layer (layout_root, dense, hashed, pointer,
dynamic, indirect) together with the block-allocator hook `allocate<T>()`.

Modelling conventions, faithful to the source:

* The block allocator (`allocate<T>()`, struct.h lines 65-78) is modelled by
  `Alloc`: `next` is the next fresh address it hands out, `count` the number
  of allocations performed so far.  Real allocator addresses are non-null and
  pairwise distinct; a child pointer is `Option Nat` with `none` standing for
  `nullptr` and `some id` for the address `id` returned by the allocator.
* `std::unordered_map<int, child_type *>` in `hashed` is an association list
  `List (Int × Option Nat)`; `map.find` is `assocFind`, `map.insert` prepends
  (it only ever runs on an absent key, like the source), and `operator[]`
  (which default-constructs `nullptr` on an absent key) is `hashed.bracket`.
  The `std::mutex mut` member is never used by any member function and has no
  behavioural content, so it is not part of the state.
* Host (`TLANG_HOST`) and device compilations of `look_up` are distinct
  functions `look_up_host` / `look_up_device`, exactly mirroring the two
  `#if` branches.  The device `look_up` of `hashed` and `pointer` neither
  takes nor returns an `Alloc` because that compilation path contains no call
  to `allocate`; immutability of `pointer.look_up_device` is likewise
  structural (it returns only the stored pointer).
* A reference (`child_type *`) into an embedded array (`dense.children`,
  `dynamic.data`, `indirect.data`) is determined by the base address and the
  slot index, so `look_up` of those variants returns the slot index `i`
  (`&data[i]`).  `layout_root.look_up` returns `&children`, the one fixed
  address, modelled by `Unit`.  For `hashed`/`pointer` the reference is the
  stored pointer value itself (`Option Nat`).
* `dynamic.data` (`child_type data[max_n]`) is modelled as `Int → α`: the
  function models the address space around the array base, so a write at an
  index outside `[0, max_n)` — which the unchecked `append` of the source can
  perform — is expressible instead of being silent undefined behaviour.  The
  same holds for `indirect.data`.
* `int` counters are `Int`.  `atomicAdd(&n, 1)` in a serial (shallow)
  embedding returns the old value of `n` and stores `n + 1`.
-/

/-- The block allocator (`allocate<T>()`): `next` is the next fresh address,
`count` the number of allocations it has served. -/
structure Alloc where
  next : Nat
  count : Nat
deriving DecidableEq

/-- One allocation: hand out `next`, bump the counters. -/
def Alloc.bump (a : Alloc) : Alloc :=
  ⟨a.next + 1, a.count + 1⟩

/-- `std::unordered_map::find` on the association-list model: the stored
value for key `i`, or `none` when `i` has no entry. -/
def assocFind (l : List (Int × Option Nat)) (i : Int) : Option (Option Nat) :=
  match l with
  | [] => none
  | (k, v) :: rest => if k = i then some v else assocFind rest i

/-- `struct layout_root` (struct.h lines 28-44): exactly one embedded child. -/
structure layout_root (α : Type) where
  children : α

/-- `layout_root::look_up(i)` returns `&children`, the single fixed address,
for every `i`; modelled by the one-element type. -/
def layout_root.look_up {α : Type} (r : layout_root α) (i : Int) : Unit :=
  ()

/-- `layout_root::get_n()` returns the constant 1. -/
def layout_root.get_n {α : Type} (r : layout_root α) : Int :=
  1

/-- `layout_root::activate(i)` is a no-op. -/
def layout_root.activate {α : Type} (r : layout_root α) (i : Int) : layout_root α :=
  r

/-- `layout_root::has_null = false`. -/
def layout_root.has_null : Bool :=
  false

/-- `struct dense<child_type, n>` (struct.h lines 46-63): a fixed array of `n`
embedded children.  The function `children` models the address space at the
array base; only `[0, n)` is the array itself. -/
structure dense (α : Type) (n : Nat) where
  children : Int → α

/-- `dense::look_up(i)` returns `&children[i]`, the address of slot `i` — no
bounds check; the reference is determined by the slot index. -/
def dense.look_up {α : Type} {n : Nat} (d : dense α n) (i : Int) : Int :=
  i

/-- `dense::get_n()` returns the compile-time fanout `n`. -/
def dense.get_n {α : Type} {n : Nat} (d : dense α n) : Int :=
  (n : Int)

/-- `dense::activate(i)` is a no-op. -/
def dense.activate {α : Type} {n : Nat} (d : dense α n) (i : Int) : dense α n :=
  d

/-- `dense::has_null = false`. -/
def dense.has_null : Bool :=
  false

/-- `struct hashed<child_type>` (struct.h lines 80-109): a sparse map from
flattened index to owned child pointer.  The unused `std::mutex` member is
stateless and omitted. -/
structure hashed where
  data : List (Int × Option Nat)

/-- A freshly constructed `hashed` node: empty map. -/
def hashed.fresh : hashed :=
  ⟨[]⟩

/-- `hashed::activate(i)` (lines 97-102): if `data.find(i) == data.end()`,
allocate a child and insert `(i, ptr)`; otherwise do nothing. -/
def hashed.activate (h : hashed) (a : Alloc) (i : Int) : hashed × Alloc :=
  match assocFind h.data i with
  | some _ => (h, a)
  | none => (⟨(i, some a.next) :: h.data⟩, a.bump)

/-- `data[i]` (`std::unordered_map::operator[]`): returns the stored pointer;
on an absent key it inserts a default-constructed `nullptr` and returns it. -/
def hashed.bracket (h : hashed) (i : Int) : hashed × Option Nat :=
  match assocFind h.data i with
  | some p => (h, p)
  | none => (⟨(i, none) :: h.data⟩, none)

/-- `hashed::look_up(i)`, `TLANG_HOST` compilation (lines 85-95): `activate(i)`
then `return data[i]`. -/
def hashed.look_up_host (h : hashed) (a : Alloc) (i : Int) :
    Option Nat × hashed × Alloc :=
  let s := h.activate a i
  let b := s.1.bracket i
  (b.2, b.1, s.2)

/-- `hashed::look_up(i)`, device compilation (lines 85-95): if
`data.find(i) == data.end()` return `nullptr`, else `return data[i]`.
No call to the allocator occurs on this path. -/
def hashed.look_up_device (h : hashed) (i : Int) : Option Nat × hashed :=
  match assocFind h.data i with
  | none => (none, h)
  | some _ =>
    let b := h.bracket i
    (b.2, b.1)

/-- `hashed::get_n()` returns `data.size()`. -/
def hashed.get_n (h : hashed) : Int :=
  (h.data.length : Int)

/-- `hashed::has_null = true`. -/
def hashed.has_null : Bool :=
  true

/-- `struct pointer<child_type>` (struct.h lines 111-135): one optionally-null
owned child pointer.  A node obtained from `allocate` is value-initialized
(`new (addr) T()`), so a fresh node has `data == nullptr`. -/
structure pointer where
  data : Option Nat
deriving DecidableEq

/-- A freshly constructed (value-initialized) `pointer` node. -/
def pointer.fresh : pointer :=
  ⟨none⟩

/-- `pointer::activate(i)` (lines 128-132): if `data == nullptr`, allocate. -/
def pointer.activate (p : pointer) (a : Alloc) (i : Int) : pointer × Alloc :=
  match p.data with
  | some _ => (p, a)
  | none => (⟨some a.next⟩, a.bump)

/-- `pointer::look_up(i)`, `TLANG_HOST` compilation (lines 116-122):
`activate(i)` then `return data`. -/
def pointer.look_up_host (p : pointer) (a : Alloc) (i : Int) :
    Option Nat × pointer × Alloc :=
  let s := p.activate a i
  (s.1.data, s.1, s.2)

/-- `pointer::look_up(i)`, device compilation (lines 116-122): just
`return data` — no allocator call, no mutation. -/
def pointer.look_up_device (p : pointer) (i : Int) : Option Nat :=
  p.data

/-- `pointer::get_n()` returns the constant 1. -/
def pointer.get_n (p : pointer) : Int :=
  1

/-- `pointer::has_null = true`. -/
def pointer.has_null : Bool :=
  true

/-- `struct dynamic<child_type, max_n>` (struct.h lines 137-180): a
fixed-capacity array `child_type data[max_n]` plus a running count `n : int`.
`data` models the address space at the array base: indices outside
`[0, max_n)` are past the end of the array. -/
structure dynamic (α : Type) (m : Nat) where
  data : Int → α
  n : Int

/-- `dynamic::dynamic()` sets `n = 0`; the array contents start
uninitialized, here an arbitrary `f`. -/
def dynamic.fresh {α : Type} {m : Nat} (f : Int → α) : dynamic α m :=
  ⟨f, 0⟩

/-- `dynamic::look_up(i)`, `TLANG_HOST` compilation (lines 147-154):
`n = std::max(n, i + 1)` ("assuming serial"), then `return &data[i]`. -/
def dynamic.look_up_host {α : Type} {m : Nat} (d : dynamic α m) (i : Int) :
    Int × dynamic α m :=
  (i, ⟨d.data, max d.n (i + 1)⟩)

/-- `dynamic::look_up(i)`, device compilation (lines 147-154): just
`return &data[i]`. -/
def dynamic.look_up_device {α : Type} {m : Nat} (d : dynamic α m) (i : Int) : Int :=
  i

/-- `dynamic::clear()` (lines 156-158): `n = 0`, nothing else. -/
def dynamic.clear {α : Type} {m : Nat} (d : dynamic α m) : dynamic α m :=
  ⟨d.data, 0⟩

/-- `dynamic::append(t)` (lines 160-168): `data[atomicAdd(&n, 1)] = t` —
write `t` at the old value of `n` and increment `n`, with no capacity
check whatsoever. -/
def dynamic.append {α : Type} {m : Nat} (d : dynamic α m) (t : α) : dynamic α m :=
  ⟨fun j => if j = d.n then t else d.data j, d.n + 1⟩

/-- `dynamic::activate(i)` (lines 170-173): does nothing. -/
def dynamic.activate {α : Type} {m : Nat} (d : dynamic α m) (i : Int) : dynamic α m :=
  d

/-- `dynamic::get_n()` returns `n`. -/
def dynamic.get_n {α : Type} {m : Nat} (d : dynamic α m) : Int :=
  d.n

/-- `dynamic::has_null = false`. -/
def dynamic.has_null : Bool :=
  false

/-- `struct indirect<max_n>` (struct.h lines 183-208): a fixed-capacity array
of plain `int` plus an atomic running count.  Its only member functions are
`get_n`, `look_up` and `clear` — the source defines no `append` for it. -/
structure indirect (m : Nat) where
  data : Int → Int
  n : Int

/-- `indirect::indirect()` sets `n = 0`. -/
def indirect.fresh {m : Nat} (f : Int → Int) : indirect m :=
  ⟨f, 0⟩

/-- `indirect::get_n()` returns `n`. -/
def indirect.get_n {m : Nat} (x : indirect m) : Int :=
  x.n

/-- `indirect::look_up(i)`, `TLANG_HOST` compilation (lines 196-201):
`n.store(std::max(n.load(), i + 1))`, then `return &data[i]`. -/
def indirect.look_up_host {m : Nat} (x : indirect m) (i : Int) : Int × indirect m :=
  (i, ⟨x.data, max x.n (i + 1)⟩)

/-- `indirect::look_up(i)`, device compilation: just `return &data[i]`. -/
def indirect.look_up_device {m : Nat} (x : indirect m) (i : Int) : Int :=
  i

/-- `indirect::clear()` (lines 203-205): `n.store(0)`, nothing else. -/
def indirect.clear {m : Nat} (x : indirect m) : indirect m :=
  ⟨x.data, 0⟩

/-- `indirect::has_null = false`. -/
def indirect.has_null : Bool :=
  false

/-!
Operation sequences on a `dynamic` node, used to state the capacity
invariant: `DynOp` lists the four operations the source offers on a
constructed node (`append`, `look_up` on the host, `clear`, `activate`).
-/

/-- One operation on a `dynamic` node. -/
inductive DynOp (α : Type) where
  | app : α → DynOp α
  | look : Int → DynOp α
  | clr : DynOp α
  | act : Int → DynOp α

/-- Running one operation on a `dynamic` node (host compilation). -/
def dynamic.step {α : Type} {m : Nat} (d : dynamic α m) : DynOp α → dynamic α m
  | DynOp.app t => d.append t
  | DynOp.look i => (d.look_up_host i).2
  | DynOp.clr => d.clear
  | DynOp.act i => d.activate i

/-- An operation is in contract for the current state: an `append` only while
`get_n() < max_n`, a `look_up` only at an index in `[0, max_n)`; `clear` and
`activate` always. -/
def dynamic.opOk {α : Type} {m : Nat} (d : dynamic α m) : DynOp α → Bool
  | DynOp.app _ => decide (d.get_n < (m : Int))
  | DynOp.look i => decide (0 ≤ i) && decide (i + 1 ≤ (m : Int))
  | DynOp.clr => true
  | DynOp.act _ => true

/-- Every operation of the sequence is in contract when it is reached. -/
def dynamic.validFrom {α : Type} {m : Nat} (d : dynamic α m) : List (DynOp α) → Bool
  | [] => true
  | op :: ops => d.opOk op && (d.step op).validFrom ops

/-- Running a sequence of operations on a `dynamic` node. -/
def dynamic.run {α : Type} {m : Nat} (d : dynamic α m) : List (DynOp α) → dynamic α m
  | [] => d
  | op :: ops => (d.step op).run ops

/-- Appending a list of values one by one (`append` applied left to right). -/
def dynamic.appendList {α : Type} {m : Nat} (d : dynamic α m) : List α → dynamic α m
  | [] => d
  | t :: rest => (d.append t).appendList rest

theorem dynamic.appendList_n {α : Type} {m : Nat} (l : List α) (d : dynamic α m) :
    (d.appendList l).n = d.n + l.length := by
  induction l generalizing d with
  | nil => simp [dynamic.appendList]
  | cons t rest ih =>
    simp only [dynamic.appendList, ih, dynamic.append, List.length_cons]
    push_cast
    ring

theorem dynamic.appendList_lo {α : Type} {m : Nat} (l : List α) (d : dynamic α m)
    (j : Int) (hj : j < d.n) : (d.appendList l).data j = d.data j := by
  induction l generalizing d with
  | nil => rfl
  | cons t rest ih =>
    show ((d.append t).appendList rest).data j = d.data j
    rw [ih (d.append t) (by simp only [dynamic.append]; omega)]
    show (if j = d.n then t else d.data j) = d.data j
    rw [if_neg (by omega)]

theorem dynamic.appendList_get {α : Type} {m : Nat} (l : List α) (d : dynamic α m)
    (k : Nat) (hk : k < l.length) :
    (d.appendList l).data (d.n + k) = l.get ⟨k, hk⟩ := by
  induction l generalizing d k with
  | nil => simp at hk
  | cons t rest ih =>
    cases k with
    | zero =>
      have hlo := dynamic.appendList_lo rest (d.append t) d.n
        (by simp only [dynamic.append]; omega)
      simp only [dynamic.appendList, Nat.cast_zero, add_zero, List.get_cons_zero]
      rw [hlo]
      simp [dynamic.append]
    | succ k' =>
      have hk' : k' < rest.length := by simpa using hk
      have ihs := ih (d.append t) k' hk'
      simp only [dynamic.append] at ihs
      have harg : d.n + ((k' + 1 : Nat) : Int) = d.n + 1 + (k' : Int) := by
        push_cast
        ring
      simp only [dynamic.appendList, List.get_cons_succ, dynamic.append]
      rw [harg]
      exact ihs

/-!
Helper lemmas about `assocFind` and the `hashed` / `pointer` operations.
-/

theorem assocFind_cons_self (l : List (Int × Option Nat)) (i : Int) (v : Option Nat) :
    assocFind ((i, v) :: l) i = some v := by
  simp [assocFind]

theorem assocFind_eq_none_iff (l : List (Int × Option Nat)) (i : Int) :
    assocFind l i = none ↔ i ∉ l.map Prod.fst := by
  induction l with
  | nil => simp [assocFind]
  | cons q rest ih =>
    obtain ⟨k, v⟩ := q
    by_cases hk : k = i
    · subst hk
      simp [assocFind]
    · have hk' : i ≠ k := fun hik => hk hik.symm
      simp [assocFind, hk, ih, hk']

theorem assocFind_mem (l : List (Int × Option Nat)) (i : Int) (v : Option Nat)
    (hf : assocFind l i = some v) : (i, v) ∈ l := by
  induction l with
  | nil => simp [assocFind] at hf
  | cons q rest ih =>
    obtain ⟨k, w⟩ := q
    by_cases hk : k = i
    · subst hk
      simp [assocFind] at hf
      subst hf
      exact List.mem_cons_self _ _
    · simp only [assocFind, if_neg hk] at hf
      exact List.mem_cons_of_mem _ (ih hf)

theorem hashed.activate_found (h : hashed) (a : Alloc) (i : Int) (v : Option Nat)
    (hf : assocFind h.data i = some v) : h.activate a i = (h, a) := by
  simp [hashed.activate, hf]

theorem hashed.activate_not_found (h : hashed) (a : Alloc) (i : Int)
    (hf : assocFind h.data i = none) :
    h.activate a i = (⟨(i, some a.next) :: h.data⟩, a.bump) := by
  simp [hashed.activate, hf]

theorem hashed.bracket_found (h : hashed) (i : Int) (v : Option Nat)
    (hf : assocFind h.data i = some v) : h.bracket i = (h, v) := by
  simp [hashed.bracket, hf]

theorem hashed.find_activate (h : hashed) (a : Alloc) (i : Int) :
    ∃ v : Option Nat, assocFind (h.activate a i).1.data i = some v := by
  cases hf : assocFind h.data i with
  | none =>
    rw [hashed.activate_not_found h a i hf]
    exact ⟨some a.next, assocFind_cons_self _ _ _⟩
  | some v =>
    rw [hashed.activate_found h a i v hf]
    exact ⟨v, hf⟩

theorem hashed.activate_idem (h : hashed) (a : Alloc) (i : Int) :
    (h.activate a i).1.activate (h.activate a i).2 i = h.activate a i := by
  obtain ⟨v, hv⟩ := hashed.find_activate h a i
  have := hashed.activate_found (h.activate a i).1 (h.activate a i).2 i v hv
  simpa using this

theorem hashed.look_up_host_val (h : hashed) (a : Alloc) (i : Int) (v : Option Nat)
    (hf : assocFind h.data i = some v) : h.look_up_host a i = (v, h, a) := by
  simp only [hashed.look_up_host, hashed.activate_found h a i v hf,
    hashed.bracket_found h i v hf]

theorem hashed.look_up_device_val (h : hashed) (i : Int) (v : Option Nat)
    (hf : assocFind h.data i = some v) : h.look_up_device i = (v, h) := by
  simp only [hashed.look_up_device, hf, hashed.bracket_found h i v hf]

theorem pointer.activate_isSome (p : pointer) (a : Alloc) (i : Int) :
    ((p.activate a i).1.data).isSome = true := by
  cases hd : p.data with
  | none => simp [pointer.activate, hd]
  | some w => simp [pointer.activate, hd]

theorem pointer.activate_again_noop (p : pointer) (a : Alloc) (i j : Int) :
    (p.activate a i).1.activate (p.activate a i).2 j = p.activate a i := by
  cases hd : p.data with
  | none => simp [pointer.activate, hd]
  | some w => simp [pointer.activate, hd]

theorem pointer.host_look_up_eval (p : pointer) (a : Alloc) (i : Int) (w : Nat)
    (hd : p.data = some w) : p.look_up_host a i = (some w, p, a) := by
  simp only [pointer.look_up_host, pointer.activate, hd]

/-- The well-formedness every reachable `hashed` state enjoys: the map only
ever stores pointers returned by the allocator, never `nullptr`. -/
def hashed.wf (h : hashed) : Prop :=
  ∀ q ∈ h.data, (Prod.snd q).isSome = true

instance (h : hashed) : Decidable (hashed.wf h) := by
  unfold hashed.wf
  infer_instance

/-- Running `activate` for each index of a list, left to right, threading the
allocator through. -/
def hashed.activateList (h : hashed) (a : Alloc) : List Int → hashed × Alloc
  | [] => (h, a)
  | i :: rest => ((h.activate a i).1).activateList ((h.activate a i).2) rest

theorem hashed.activateList_cons (h : hashed) (a : Alloc) (i : Int)
    (rest : List Int) :
    h.activateList a (i :: rest) =
      ((h.activate a i).1).activateList ((h.activate a i).2) rest :=
  rfl

theorem hashed.activateList_keys (l : List Int) (h : hashed) (a : Alloc)
    (hnd : (h.data.map Prod.fst).Nodup) :
    ((h.activateList a l).1.data.map Prod.fst).Nodup ∧
    ((h.activateList a l).1.data.map Prod.fst).toFinset =
      (h.data.map Prod.fst).toFinset ∪ l.toFinset := by
  induction l generalizing h a with
  | nil => exact ⟨hnd, by simp [hashed.activateList]⟩
  | cons i rest ih =>
    rw [hashed.activateList_cons]
    cases hf : assocFind h.data i with
    | some v =>
      have himem : i ∈ h.data.map Prod.fst := by
        by_contra hmem
        rw [← assocFind_eq_none_iff] at hmem
        rw [hmem] at hf
        cases hf
      rw [hashed.activate_found h a i v hf]
      obtain ⟨hnd', hset'⟩ := ih h a hnd
      refine ⟨hnd', ?_⟩
      rw [hset', List.toFinset_cons, Finset.union_insert,
        Finset.insert_eq_self.mpr
          (Finset.mem_union_left _ (List.mem_toFinset.mpr himem))]
    | none =>
      have himem : i ∉ h.data.map Prod.fst := (assocFind_eq_none_iff _ _).mp hf
      rw [hashed.activate_not_found h a i hf]
      have hnd2 : (((i, some a.next) :: h.data).map Prod.fst).Nodup := by
        simp only [List.map_cons]
        exact List.Nodup.cons himem hnd
      obtain ⟨hnd', hset'⟩ := ih ⟨(i, some a.next) :: h.data⟩ a.bump hnd2
      refine ⟨hnd', ?_⟩
      rw [hset']
      simp only [List.map_cons, List.toFinset_cons]
      rw [Finset.insert_union, Finset.union_insert]

/-- Invariant preservation for a run of in-contract operations on a `dynamic`
node: the count stays at or below the capacity. -/
theorem dynamic.run_le {α : Type} {m : Nat} (ops : List (DynOp α))
    (d : dynamic α m) (hn : d.get_n ≤ (m : Int))
    (hv : d.validFrom ops = true) :
    (d.run ops).get_n ≤ (m : Int) := by
  induction ops generalizing d with
  | nil => exact hn
  | cons op rest ih =>
    have hv' : (d.opOk op && (d.step op).validFrom rest) = true := hv
    rw [Bool.and_eq_true] at hv'
    refine ih (d.step op) ?_ hv'.2
    cases op with
    | app t =>
      have hlt : d.get_n < (m : Int) := by
        have := hv'.1
        simpa [dynamic.opOk] using this
      show d.n + 1 ≤ (m : Int)
      simp only [dynamic.get_n] at hlt
      omega
    | look i =>
      have hle : i + 1 ≤ (m : Int) := by
        have := hv'.1
        simp only [dynamic.opOk, Bool.and_eq_true, decide_eq_true_eq] at this
        exact this.2
      show max d.n (i + 1) ≤ (m : Int)
      exact max_le hn hle
    | clr =>
      show (0 : Int) ≤ (m : Int)
      exact Int.natCast_nonneg m
    | act i => exact hn

/-- C1 (corrected): on a Dynamic node, `get_n()` stays at or below the
physical capacity `max_n` for every sequence of in-contract operations from
a fresh node — each `append` issued only while `get_n() < max_n` and each
host `look_up` at an index in `[0, max_n)`; `clear` and `activate` are
unrestricted.  (As originally stated, over all operation sequences, the
claim is false: `dynamic::append` has no capacity check, see
`C1_unbounded_counterexample`.) -/
theorem C1_in_contract_count_bounded {α : Type} {m : Nat} (f : Int → α)
    (ops : List (DynOp α))
    (hv : (dynamic.fresh f : dynamic α m).validFrom ops = true) :
    ((dynamic.fresh f : dynamic α m).run ops).get_n ≤ (m : Int) :=
  dynamic.run_le ops (dynamic.fresh f) (Int.natCast_nonneg m) hv

/-- C1 witness: a concrete in-contract run on a capacity-2 node. -/
theorem C1_in_contract_count_bounded_witness :
    (dynamic.fresh (fun _ => 0) : dynamic Nat 2).validFrom
      [DynOp.app 5, DynOp.look 1, DynOp.clr, DynOp.app 6] = true ∧
    ((dynamic.fresh (fun _ => 0) : dynamic Nat 2).run
      [DynOp.app 5, DynOp.look 1, DynOp.clr, DynOp.app 6]).get_n ≤ ((2 : Nat) : Int) :=
  ⟨by decide, C1_in_contract_count_bounded (fun _ => 0)
    [DynOp.app 5, DynOp.look 1, DynOp.clr, DynOp.app 6] (by decide)⟩

/-- C1 counterexample: two unchecked appends on a fresh `dynamic` node of
capacity `max_n = 1` drive `get_n()` to 2 > 1, so the claim as stated (over
every operation sequence) is false on the code. -/
theorem C1_unbounded_counterexample :
    ((((dynamic.fresh (fun _ => 0) : dynamic Nat 1).append 5).append 7).get_n = 2) ∧
    ¬ ((((dynamic.fresh (fun _ => 0) : dynamic Nat 1).append 5).append 7).get_n
        ≤ ((1 : Nat) : Int)) := by
  constructor
  · rfl
  · decide

/-- C2: evaluation of the code at the failing input.  On a fresh `dynamic`
node of capacity `max_n = 1`, the first append succeeds, and the second
(the `(max_n + 1)`-th) append is not rejected or reported: it executes
`data[atomicAdd(&n, 1)] = t`, writing the value at slot index 1 — outside
the array bounds `[0, 1)` — and leaves `get_n() = 2`. -/
theorem C2_unchecked_append_overflows :
    ((((dynamic.fresh (fun _ => 0) : dynamic Nat 1).append 5).append 7).get_n = 2) ∧
    ((((dynamic.fresh (fun _ => 0) : dynamic Nat 1).append 5).append 7).data 1 = 7) ∧
    ¬ ((1 : Int) < ((1 : Nat) : Int)) := by
  refine ⟨rfl, ?_, by decide⟩
  show (if (1 : Int) = 1 then 7 else
    (if (1 : Int) = 0 then 5 else (0 : Nat))) = 7
  rw [if_pos rfl]

/-- C3 (Dynamic half): `append` reserves the next slot by fetch-and-increment
and writes there; appending a list of `M ≤ max_n` values on a fresh node
puts the `k`-th value into slot `k` — all slots distinct, in `[0, M)` — and
leaves `get_n() = M`. -/
theorem C3_dynamic_append_fills_slots {α : Type} {m : Nat} (f : Int → α)
    (l : List α) (hlen : l.length ≤ m) :
    ((dynamic.fresh f : dynamic α m).appendList l).get_n = (l.length : Int) ∧
    ∀ (k : Nat) (hk : k < l.length),
      ((dynamic.fresh f : dynamic α m).appendList l).data (k : Int) = l.get ⟨k, hk⟩ := by
  constructor
  · show ((dynamic.fresh f : dynamic α m).appendList l).n = (l.length : Int)
    rw [dynamic.appendList_n]
    show (0 : Int) + l.length = l.length
    ring
  · intro k hk
    have hg := dynamic.appendList_get l (dynamic.fresh f : dynamic α m) k hk
    simpa [dynamic.fresh] using hg

/-- C3 witness: two appends on a fresh capacity-3 node. -/
theorem C3_dynamic_append_fills_slots_witness :
    ((2 : Nat) ≤ 3) ∧
    ((dynamic.fresh (fun _ => 0) : dynamic Nat 3).appendList [10, 20]).get_n
      = ((2 : Nat) : Int) ∧
    ((dynamic.fresh (fun _ => 0) : dynamic Nat 3).appendList [10, 20]).data
      ((0 : Nat) : Int) = 10 ∧
    ((dynamic.fresh (fun _ => 0) : dynamic Nat 3).appendList [10, 20]).data
      ((1 : Nat) : Int) = 20 := by
  have h := @C3_dynamic_append_fills_slots Nat 3 (fun _ => 0) [10, 20] (by decide)
  exact ⟨by decide, h.1, h.2 0 (by decide), h.2 1 (by decide)⟩

/-- C9: `clear()` on a Dynamic or Indirect node resets the counter so that
`get_n()` is 0 and changes nothing else — the data array is untouched. -/
theorem C9_clear_resets_count_only {α : Type} {m k : Nat}
    (d : dynamic α m) (x : indirect k) :
    d.clear.get_n = 0 ∧ d.clear.data = d.data ∧
    x.clear.get_n = 0 ∧ x.clear.data = x.data :=
  ⟨rfl, rfl, rfl, rfl⟩

/-- C10: on the host, `look_up(i)` on a Dynamic or Indirect node raises the
counter to `max(previous count, i + 1)`: afterwards `get_n()` is at least
`i + 1`, and it never decreases. -/
theorem C10_host_look_up_raises_count {α : Type} {m k : Nat}
    (d : dynamic α m) (x : indirect k) (i j : Int) :
    (d.look_up_host i).2.get_n = max d.get_n (i + 1) ∧
    i + 1 ≤ (d.look_up_host i).2.get_n ∧
    d.get_n ≤ (d.look_up_host i).2.get_n ∧
    (x.look_up_host j).2.get_n = max x.get_n (j + 1) ∧
    j + 1 ≤ (x.look_up_host j).2.get_n ∧
    x.get_n ≤ (x.look_up_host j).2.get_n :=
  ⟨rfl, le_max_right d.get_n (i + 1), le_max_left d.get_n (i + 1),
    rfl, le_max_right x.get_n (j + 1), le_max_left x.get_n (j + 1)⟩

/-- C4: on a device context, `look_up(i)` on a Hashed node whose index `i`
was never activated, or on a Pointer node whose slot was never populated,
returns the explicit absent reference (`none`, i.e. `nullptr`) and mutates
nothing.  Allocation-freeness is structural: the device compilation of
`look_up` contains no allocator call, so its embedding does not even take an
`Alloc`; `pointer::look_up` on device reads only the stored pointer. -/
theorem C4_device_look_up_before_activate (h : hashed) (p : pointer)
    (i j : Int) (hh : assocFind h.data i = none) (hp : p.data = none) :
    (h.look_up_device i).1 = none ∧ (h.look_up_device i).2 = h ∧
    p.look_up_device j = none := by
  refine ⟨?_, ?_, hp⟩ <;> simp [hashed.look_up_device, hh]

/-- C4 witness: fresh nodes, never activated. -/
theorem C4_device_look_up_before_activate_witness :
    assocFind hashed.fresh.data 3 = none ∧ pointer.fresh.data = none ∧
    ((hashed.fresh.look_up_device 3).1 = none ∧
      (hashed.fresh.look_up_device 3).2 = hashed.fresh ∧
      pointer.fresh.look_up_device 0 = none) :=
  ⟨rfl, rfl, C4_device_look_up_before_activate hashed.fresh pointer.fresh 3 0 rfl rfl⟩

/-- C5: on the host, `look_up(i)` on a Hashed or Pointer node triggers
activation: the node and allocator state after `look_up(i)` equal the state
after `activate(i)`, the child slot for `i` then exists (Hashed: the key is
recorded in the map; Pointer: the pointer is non-null), and the returned
reference is exactly that slot's stored child.  The hypothesis `hwf` states
that the map holds only allocator-produced (non-null) pointers, which is
true of every reachable state. -/
theorem C5_host_look_up_activates (h : hashed) (p : pointer) (a b : Alloc)
    (i j : Int) (hwf : hashed.wf h) :
    (h.look_up_host a i).2.1 = (h.activate a i).1 ∧
    (h.look_up_host a i).2.2 = (h.activate a i).2 ∧
    assocFind ((h.activate a i).1).data i = some (h.look_up_host a i).1 ∧
    ((h.look_up_host a i).1).isSome = true ∧
    (p.look_up_host b j).2.1 = (p.activate b j).1 ∧
    (p.look_up_host b j).2.2 = (p.activate b j).2 ∧
    (p.look_up_host b j).1 = ((p.activate b j).1).data ∧
    ((p.look_up_host b j).1).isSome = true := by
  have key : ∃ v, assocFind (h.activate a i).1.data i = some v ∧
      v.isSome = true := by
    cases hf : assocFind h.data i with
    | none =>
      refine ⟨some a.next, ?_, rfl⟩
      rw [hashed.activate_not_found h a i hf]
      exact assocFind_cons_self _ _ _
    | some w =>
      refine ⟨w, ?_, hwf (i, w) (assocFind_mem h.data i w hf)⟩
      rw [hashed.activate_found h a i w hf]
      exact hf
  obtain ⟨v, hv, hvs⟩ := key
  have hlu : h.look_up_host a i = (v, (h.activate a i).1, (h.activate a i).2) := by
    show ((((h.activate a i).1).bracket i).2, (((h.activate a i).1).bracket i).1,
      (h.activate a i).2) = _
    rw [hashed.bracket_found (h.activate a i).1 i v hv]
  refine ⟨?_, ?_, ?_, ?_, rfl, rfl, rfl, pointer.activate_isSome p b j⟩
  · rw [hlu]
  · rw [hlu]
  · rw [hlu]
    exact hv
  · rw [hlu]
    exact hvs

/-- C5 witness: a fresh Hashed node (vacuously well-formed) and a fresh
Pointer node. -/
theorem C5_host_look_up_activates_witness :
    hashed.wf hashed.fresh ∧
    ((hashed.fresh.look_up_host (Alloc.mk 0 0) 4).2.1 =
        (hashed.fresh.activate (Alloc.mk 0 0) 4).1 ∧
      (hashed.fresh.look_up_host (Alloc.mk 0 0) 4).2.2 =
        (hashed.fresh.activate (Alloc.mk 0 0) 4).2 ∧
      assocFind ((hashed.fresh.activate (Alloc.mk 0 0) 4).1).data 4 =
        some (hashed.fresh.look_up_host (Alloc.mk 0 0) 4).1 ∧
      ((hashed.fresh.look_up_host (Alloc.mk 0 0) 4).1).isSome = true ∧
      (pointer.fresh.look_up_host (Alloc.mk 1 0) 0).2.1 =
        (pointer.fresh.activate (Alloc.mk 1 0) 0).1 ∧
      (pointer.fresh.look_up_host (Alloc.mk 1 0) 0).2.2 =
        (pointer.fresh.activate (Alloc.mk 1 0) 0).2 ∧
      (pointer.fresh.look_up_host (Alloc.mk 1 0) 0).1 =
        ((pointer.fresh.activate (Alloc.mk 1 0) 0).1).data ∧
      ((pointer.fresh.look_up_host (Alloc.mk 1 0) 0).1).isSome = true) :=
  ⟨by decide, C5_host_look_up_activates hashed.fresh pointer.fresh
    (Alloc.mk 0 0) (Alloc.mk 1 0) 4 0 (by decide)⟩

/-- C7: the first `activate` for an absent Hashed index or an unset Pointer
slot performs exactly one allocation (the allocator count rises by one), and
a repeated `activate` for the same index changes nothing at all — no second
allocation, previously installed child untouched. -/
theorem C7_activate_allocates_once (h : hashed) (p : pointer) (a b : Alloc)
    (i : Int) (hh : assocFind h.data i = none) (hp : p.data = none) :
    ((h.activate a i).2).count = a.count + 1 ∧
    (h.activate a i).1.activate (h.activate a i).2 i = h.activate a i ∧
    ((p.activate b i).2).count = b.count + 1 ∧
    (p.activate b i).1.activate (p.activate b i).2 i = p.activate b i := by
  refine ⟨?_, hashed.activate_idem h a i, ?_, pointer.activate_again_noop p b i i⟩
  · rw [hashed.activate_not_found h a i hh]
    rfl
  · simp [pointer.activate, hp, Alloc.bump]

/-- C7 witness: fresh nodes, an allocator with count 0 and one with count 3. -/
theorem C7_activate_allocates_once_witness :
    assocFind hashed.fresh.data 2 = none ∧ pointer.fresh.data = none ∧
    (((hashed.fresh.activate (Alloc.mk 0 0) 2).2).count = (Alloc.mk 0 0).count + 1 ∧
      (hashed.fresh.activate (Alloc.mk 0 0) 2).1.activate
        (hashed.fresh.activate (Alloc.mk 0 0) 2).2 2 =
        hashed.fresh.activate (Alloc.mk 0 0) 2 ∧
      ((pointer.fresh.activate (Alloc.mk 7 3) 2).2).count = (Alloc.mk 7 3).count + 1 ∧
      (pointer.fresh.activate (Alloc.mk 7 3) 2).1.activate
        (pointer.fresh.activate (Alloc.mk 7 3) 2).2 2 =
        pointer.fresh.activate (Alloc.mk 7 3) 2) :=
  ⟨rfl, rfl, C7_activate_allocates_once hashed.fresh pointer.fresh
    (Alloc.mk 0 0) (Alloc.mk 7 3) 2 rfl rfl⟩

/-- C8: `get_n()` returns, for a Hashed node, the number of distinct indices
activated so far (re-activating an index contributes nothing); for a Pointer
node, always 1, populated or not; for Root, the static capacity 1. -/
theorem C8_get_n_counts (α : Type) (l : List Int) (a : Alloc) (p : pointer)
    (r : layout_root α) :
    ((hashed.fresh.activateList a l).1).get_n = (l.toFinset.card : Int) ∧
    p.get_n = 1 ∧ r.get_n = 1 := by
  refine ⟨?_, rfl, rfl⟩
  obtain ⟨hnd, hset⟩ :=
    hashed.activateList_keys l hashed.fresh a (by simp [hashed.fresh])
  have hset' : ((hashed.fresh.activateList a l).1.data.map Prod.fst).toFinset =
      l.toFinset := by
    rw [hset]
    simp [hashed.fresh]
  have hnat : (hashed.fresh.activateList a l).1.data.length = l.toFinset.card := by
    rw [← hset', List.toFinset_card_of_nodup hnd, List.length_map]
  show ((hashed.fresh.activateList a l).1.data.length : Int) = (l.toFinset.card : Int)
  exact_mod_cast hnat

/-- C6: for every variant and in-range index, `activate(i)` followed by two
calls of `look_up(i)` returns the same child reference both times, the second
call running on the state left by the first.  For Root/Dense the reference is
the fixed slot address; for Hashed/Pointer it is the stored child pointer
(host and device compilations both covered); for Dynamic/Indirect it is the
slot address `&data[i]`.  The source defines no `activate` member for
`indirect`, so its conjunct states the two `look_up` calls directly. -/
theorem C6_activate_look_up_twice_same_ref {α : Type} {N m : Nat}
    (r : layout_root α) (dn : dense α N) (h : hashed) (a : Alloc)
    (p : pointer) (b : Alloc) (dy : dynamic α m) (x : indirect m) (i : Int)
    (h0 : 0 ≤ i) (hN : i < (N : Int)) (hm : i < (m : Int)) :
    (r.activate i).look_up i = (r.activate i).look_up i ∧
    (dn.activate i).look_up i = (dn.activate i).look_up i ∧
    (((h.activate a i).1.look_up_host (h.activate a i).2 i).2.1.look_up_host
        ((h.activate a i).1.look_up_host (h.activate a i).2 i).2.2 i).1 =
      ((h.activate a i).1.look_up_host (h.activate a i).2 i).1 ∧
    (((h.activate a i).1.look_up_device i).2.look_up_device i).1 =
      ((h.activate a i).1.look_up_device i).1 ∧
    (((p.activate b i).1.look_up_host (p.activate b i).2 i).2.1.look_up_host
        ((p.activate b i).1.look_up_host (p.activate b i).2 i).2.2 i).1 =
      ((p.activate b i).1.look_up_host (p.activate b i).2 i).1 ∧
    (p.activate b i).1.look_up_device i = (p.activate b i).1.look_up_device i ∧
    (((dy.activate i).look_up_host i).2.look_up_host i).1 =
      ((dy.activate i).look_up_host i).1 ∧
    ((x.look_up_host i).2.look_up_host i).1 = (x.look_up_host i).1 := by
  obtain ⟨v, hv⟩ := hashed.find_activate h a i
  have hlu := hashed.look_up_host_val (h.activate a i).1 (h.activate a i).2 i v hv
  have hld := hashed.look_up_device_val (h.activate a i).1 i v hv
  obtain ⟨w, hw⟩ := Option.isSome_iff_exists.mp (pointer.activate_isSome p b i)
  have hplu := pointer.host_look_up_eval (p.activate b i).1 (p.activate b i).2 i w hw
  refine ⟨rfl, rfl, ?_, ?_, ?_, rfl, rfl, rfl⟩
  · simp [hlu]
  · simp [hld]
  · simp [hplu]

/-- C6 witness: index 2 on concrete nodes of capacity 4 (1 for Root and
Pointer, whose `look_up` ignores the index). -/
theorem C6_activate_look_up_twice_same_ref_witness :
    (0 : Int) ≤ 2 ∧ (2 : Int) < ((4 : Nat) : Int) ∧ (2 : Int) < ((4 : Nat) : Int) ∧
    (((layout_root.mk (0 : Nat)).activate 2).look_up 2 =
        ((layout_root.mk (0 : Nat)).activate 2).look_up 2 ∧
      ((dense.mk (fun _ => 0) : dense Nat 4).activate 2).look_up 2 =
        ((dense.mk (fun _ => 0) : dense Nat 4).activate 2).look_up 2 ∧
      (((hashed.fresh.activate (Alloc.mk 0 0) 2).1.look_up_host
            (hashed.fresh.activate (Alloc.mk 0 0) 2).2 2).2.1.look_up_host
          ((hashed.fresh.activate (Alloc.mk 0 0) 2).1.look_up_host
            (hashed.fresh.activate (Alloc.mk 0 0) 2).2 2).2.2 2).1 =
        ((hashed.fresh.activate (Alloc.mk 0 0) 2).1.look_up_host
          (hashed.fresh.activate (Alloc.mk 0 0) 2).2 2).1 ∧
      (((hashed.fresh.activate (Alloc.mk 0 0) 2).1.look_up_device 2).2.look_up_device 2).1 =
        ((hashed.fresh.activate (Alloc.mk 0 0) 2).1.look_up_device 2).1 ∧
      (((pointer.fresh.activate (Alloc.mk 5 1) 2).1.look_up_host
            (pointer.fresh.activate (Alloc.mk 5 1) 2).2 2).2.1.look_up_host
          ((pointer.fresh.activate (Alloc.mk 5 1) 2).1.look_up_host
            (pointer.fresh.activate (Alloc.mk 5 1) 2).2 2).2.2 2).1 =
        ((pointer.fresh.activate (Alloc.mk 5 1) 2).1.look_up_host
          (pointer.fresh.activate (Alloc.mk 5 1) 2).2 2).1 ∧
      (pointer.fresh.activate (Alloc.mk 5 1) 2).1.look_up_device 2 =
        (pointer.fresh.activate (Alloc.mk 5 1) 2).1.look_up_device 2 ∧
      ((((dynamic.fresh (fun _ => 0) : dynamic Nat 4).activate 2).look_up_host 2).2.look_up_host 2).1 =
        (((dynamic.fresh (fun _ => 0) : dynamic Nat 4).activate 2).look_up_host 2).1 ∧
      (((indirect.fresh (fun _ => 0) : indirect 4).look_up_host 2).2.look_up_host 2).1 =
        ((indirect.fresh (fun _ => 0) : indirect 4).look_up_host 2).1) :=
  ⟨by decide, by decide, by decide,
    C6_activate_look_up_twice_same_ref (layout_root.mk (0 : Nat))
      (dense.mk (fun _ => 0) : dense Nat 4) hashed.fresh (Alloc.mk 0 0)
      pointer.fresh (Alloc.mk 5 1) (dynamic.fresh (fun _ => 0) : dynamic Nat 4)
      (indirect.fresh (fun _ => 0) : indirect 4) 2
      (by decide) (by decide) (by decide)⟩
